import Mathlib

/-!
Verification development for the PlanetStore gateway (src/gateway).

The definitions below are shallow embeddings of the Python source files:
ec.py, config.py, main.py, metadata.py, quota_manager.py, gc_service.py and
s3_api.py.  Machine bytes are modelled as natural numbers, the database rows
as Lean structures, and each fallible operation returns an Except value.
The zfec erasure-coding library is an external dependency that is not part
of the repository; its encoder and decoder are modelled from the
specification (section 4.1) as a systematic Vandermonde code over the prime
field with 257 elements.
-/

namespace PlanetStore

/-- Prime field used to model the Galois-field arithmetic of the erasure
codec.  257 is prime, so ZMod 257 is a field and every byte value 0..255
embeds injectively. -/
abbrev F : Type := ZMod 257

instance fact_prime_257 : Fact (Nat.Prime 257) := ⟨by norm_num⟩

namespace EC

/-- Embedding of K from src/gateway/ec.py: minimum number of shards needed
to reconstruct the data. -/
def K : Nat := 4

/-- Embedding of M from src/gateway/ec.py: total number of shards. -/
def M : Nat := 6

/-- Embedding of chunk_size = math.ceil(len(data) / K) from encode_data in
src/gateway/ec.py. -/
def chunkSize (n : Nat) : Nat := (n + K - 1) / K

/-- Coefficient of data block i in shard j.  Shards 0..K-1 are the data
blocks themselves (the code is systematic); shard 4 sums the blocks with
coefficient 1 and shard 5 with coefficient 2 ^ i (a Vandermonde layout). -/
def gcoef (j i : Nat) : F :=
  if j < 4 then (if i = j then 1 else 0)
  else if j = 4 then 1
  else (2 : F) ^ i

/-- Byte t of data block i, as a field element (missing positions read as
the zero padding byte). -/
def blockAt (blocks : List (List Nat)) (i t : Nat) : F :=
  (((blocks.getD i []).getD t 0 : Nat) : F)

/-- Byte t of shard j produced by the encoder. -/
def shardByte (blocks : List (List Nat)) (j t : Nat) : F :=
  Finset.sum (Finset.range K) (fun i => gcoef j i * blockAt blocks i t)

/-- Modelled from the spec: the zfec encoder (the zfec library is an
external dependency absent from src).  Section 4.1: from K equal data
blocks compute M shards of the same size such that any K of the M shards
reconstruct the K data blocks. -/
def zfecEncode (blocks : List (List Nat)) : List (List Nat) :=
  let cs := (blocks.getD 0 []).length
  (List.range M).map (fun j => (List.range cs).map (fun t => (shardByte blocks j t).val))

/-- Embedding of encode_data from src/gateway/ec.py: pad the blob with zero
bytes to chunk_size * K, split it into K consecutive blocks of chunk_size
bytes each, and encode the blocks. -/
def encode_data (data : List Nat) : List (List Nat) :=
  let cs := chunkSize data.length
  let padded := data ++ List.replicate (cs * K - data.length) 0
  let blocks := (List.range K).map (fun i => (padded.drop (i * cs)).take cs)
  zfecEncode blocks

/-- Data indices (0..K-1) absent from the supplied index list. -/
def missingData (nums : List Nat) : List Nat :=
  (List.range K).filter (fun i => !(decide (i ∈ nums)))

/-- Data indices (0..K-1) present in the supplied index list. -/
def presentData (nums : List Nat) : List Nat :=
  (List.range K).filter (fun i => decide (i ∈ nums))

/-- Field-level reconstruction of data block i from the shard values: v j
is the byte value of the shard with original index j (meaningful for
j in nums).  With at most two of the six shards missing, the missing data
blocks are solved from the parity equations. -/
def recoverF (v : Nat → F) (nums : List Nat) (i : Nat) : F :=
  if i ∈ nums then v i
  else
    match missingData nums with
    | [m] =>
        let p : Nat := if 4 ∈ nums then 4 else 5
        (v p - ((presentData nums).map (fun q => gcoef p q * v q)).sum) / gcoef p m
    | [m1, m2] =>
        let s1 := v 4 - ((presentData nums).map (fun q => v q)).sum
        let s2 := v 5 - ((presentData nums).map (fun q => (2 : F) ^ q * v q)).sum
        let d1 := ((2 : F) ^ m2 * s1 - s2) / ((2 : F) ^ m2 - (2 : F) ^ m1)
        if i = m1 then d1 else s1 - d1
    | _ => 0

/-- Byte t of the supplied shard whose original index is j. -/
def sval (shards : List (List Nat)) (nums : List Nat) (j t : Nat) : F :=
  (((shards.getD (nums.indexOf j) []).getD t 0 : Nat) : F)

/-- Modelled from the spec: the zfec decoder (external library absent from
src).  Section 4.1: decoding requires K shards carrying their original
0..M-1 indices and fails when indices are duplicate or out of range; from
valid input it reconstructs the K data blocks. -/
def zfecDecode (shards : List (List Nat)) (nums : List Nat) :
    Except String (List (List Nat)) :=
  if nums.length = K ∧ shards.length = K ∧ nums.Nodup ∧ ∀ j ∈ nums, j < M then
    let cs := (shards.getD 0 []).length
    Except.ok ((List.range K).map (fun i =>
      (List.range cs).map (fun t => (recoverF (fun j => sval shards nums j t) nums i).val)))
  else
    Except.error "invalid shard indices"

/-- Embedding of decode_data from src/gateway/ec.py: require at least K
shards, hand the first K shards and the first K indices to the decoder,
join the recovered blocks and truncate to original_size. -/
def decode_data (shards : List (List Nat)) (shard_nums : List Nat)
    (original_size : Nat) : Except String (List Nat) :=
  if shards.length < K then Except.error "Need at least 4 shards to recover data"
  else
    match zfecDecode (shards.take K) (shard_nums.take K) with
    | Except.error e => Except.error e
    | Except.ok blocks => Except.ok (blocks.flatten.take original_size)

set_option maxHeartbeats 2000000 in
theorem recoverF_correct (b v : Nat → F) (nums : List Nat)
    (h4 : nums.length = 4) (hnd : nums.Nodup) (hlt : ∀ j ∈ nums, j < 6)
    (hv : ∀ j ∈ nums, v j = Finset.sum (Finset.range 4) (fun q => gcoef j q * b q))
    (i : Nat) (hi : i < 4) :
    recoverF v nums i = b i := by
  have hsub : nums.toFinset ⊆ Finset.range 6 := by
    intro x hx
    simp only [List.mem_toFinset] at hx
    simpa using hlt x hx
  have hcard : nums.toFinset.card = 4 := by
    rw [List.toFinset_card_of_nodup hnd, h4]
  obtain ⟨S, hSeq⟩ : ∃ S, nums.toFinset = S := ⟨_, rfl⟩
  have hS : S ∈ Finset.powersetCard 4 (Finset.range 6) := by
    rw [← hSeq]
    exact Finset.mem_powersetCard.2 ⟨hsub, hcard⟩
  have hb : ∀ x, (x ∈ nums) = (x ∈ S) := by
    intro x
    rw [← hSeq, List.mem_toFinset]
  have hall : ∀ T ∈ Finset.powersetCard 4 (Finset.range 6),
      T = ({0,1,2,3} : Finset ℕ) ∨ T = {0,1,2,4} ∨ T = {0,1,2,5} ∨ T = {0,1,3,4} ∨
      T = {0,1,3,5} ∨ T = {0,1,4,5} ∨ T = {0,2,3,4} ∨ T = {0,2,3,5} ∨
      T = {0,2,4,5} ∨ T = {0,3,4,5} ∨ T = {1,2,3,4} ∨ T = {1,2,3,5} ∨
      T = {1,2,4,5} ∨ T = {1,3,4,5} ∨ T = {2,3,4,5} := by decide
  have n2 : (2 : F) ≠ 0 := by decide
  have n3 : (3 : F) ≠ 0 := by decide
  have n4 : (4 : F) ≠ 0 := by decide
  have n6 : (6 : F) ≠ 0 := by decide
  have n7 : (7 : F) ≠ 0 := by decide
  have n8 : (8 : F) ≠ 0 := by decide
  have hr4 : List.range K = [0, 1, 2, 3] := by rfl
  rcases hall S hS with rfl | rfl | rfl | rfl | rfl | rfl | rfl | rfl | rfl | rfl | rfl | rfl | rfl | rfl | rfl <;>
    interval_cases i <;>
    norm_num [recoverF, missingData, presentData, hb, hv, gcoef, hr4,
      Finset.sum_range_succ] <;>
    (try field_simp) <;>
    (try ring)

lemma getD_take_of_lt (l : List Nat) (m j d : Nat) (h : j < m) :
    (l.take m).getD j d = l.getD j d := by
  by_cases hj : j < l.length
  · have h1 : j < (l.take m).length := by
      simp only [List.length_take]
      omega
    rw [List.getD_eq_getElem _ _ h1, List.getD_eq_getElem _ _ hj]
    simp
  · have h1 : l.length ≤ j := by omega
    have h2 : (l.take m).length ≤ j := by
      simp only [List.length_take]
      omega
    rw [List.getD_eq_getElem?_getD, List.getD_eq_getElem?_getD,
      List.getElem?_eq_none h1, List.getElem?_eq_none h2]

lemma getD_drop (l : List Nat) (s t d : Nat) :
    (l.drop s).getD t d = l.getD (s + t) d := by
  by_cases hj : s + t < l.length
  · have h1 : t < (l.drop s).length := by
      simp only [List.length_drop]
      omega
    rw [List.getD_eq_getElem _ _ h1, List.getD_eq_getElem _ _ hj]
    simp
  · have h1 : l.length ≤ s + t := by omega
    have h2 : (l.drop s).length ≤ t := by
      simp only [List.length_drop]
      omega
    rw [List.getD_eq_getElem?_getD, List.getD_eq_getElem?_getD,
      List.getElem?_eq_none h1, List.getElem?_eq_none h2]

lemma map_range_getD (l : List Nat) (s m : Nat) (h : s + m ≤ l.length) :
    (List.range m).map (fun t => l.getD (s + t) 0) = (l.drop s).take m := by
  apply List.ext_getElem
  · simp only [List.length_map, List.length_range, List.length_take, List.length_drop]
    omega
  · intro j hj1 hj2
    simp only [List.length_map, List.length_range] at hj1
    simp only [List.getElem_map, List.getElem_range, List.getElem_take, List.getElem_drop]
    exact List.getD_eq_getElem _ _ (by omega)

lemma chunks_flatten (cs : Nat) :
    ∀ (k : Nat) (l : List Nat), l.length = k * cs →
      ((List.range k).map (fun i =>
        (List.range cs).map (fun t => l.getD (i * cs + t) 0))).flatten = l := by
  intro k
  induction k with
  | zero =>
      intro l hl
      simp only [Nat.zero_mul] at hl
      simp [List.length_eq_zero.1 hl]
  | succ k ih =>
      intro l hl
      have hsucc : (k + 1) * cs = k * cs + cs := by ring
      rw [hsucc] at hl
      have htk : (l.take (k * cs)).length = k * cs := by
        simp only [List.length_take]
        omega
      rw [List.range_succ, List.map_append, List.flatten_append]
      have h2 : (List.range k).map (fun i =>
          (List.range cs).map (fun t => l.getD (i * cs + t) 0))
          = (List.range k).map (fun i =>
          (List.range cs).map (fun t => (l.take (k * cs)).getD (i * cs + t) 0)) := by
        apply List.map_congr_left
        intro i hi
        apply List.map_congr_left
        intro t ht
        have hik : i < k := List.mem_range.1 hi
        have htc : t < cs := List.mem_range.1 ht
        have hmul : (i + 1) * cs ≤ k * cs := Nat.mul_le_mul_right cs (by omega)
        have hmul2 : (i + 1) * cs = i * cs + cs := by ring
        rw [getD_take_of_lt]
        omega
      rw [h2, ih (l.take (k * cs)) htk]
      simp only [List.map_singleton, List.flatten_cons, List.flatten_nil, List.append_nil]
      rw [map_range_getD l (k * cs) cs (by omega)]
      have hdl : (l.drop (k * cs)).length = cs := by
        simp only [List.length_drop]
        omega
      rw [List.take_of_length_le (le_of_eq hdl)]
      exact List.take_append_drop _ l

theorem encode_shard_get (B : List Nat) (j : Nat) (hj : j < M) :
    (encode_data B).getD j []
      = (List.range (chunkSize B.length)).map (fun t =>
          (shardByte ((List.range K).map (fun i =>
            ((B ++ List.replicate (chunkSize B.length * K - B.length) 0).drop
              (i * chunkSize B.length)).take (chunkSize B.length))) j t).val) := by
  have hnle : B.length ≤ chunkSize B.length * K := by
    simp only [chunkSize, K]
    have h1 := Nat.div_add_mod (B.length + 4 - 1) 4
    have h2 : (B.length + 4 - 1) % 4 < 4 := Nat.mod_lt _ (by norm_num)
    omega
  set cs := chunkSize B.length with hcs
  set padded := B ++ List.replicate (cs * K - B.length) 0 with hpad
  have hpadlen : padded.length = cs * K := by
    simp only [hpad, List.length_append, List.length_replicate]
    omega
  set blocks := (List.range K).map (fun i => (padded.drop (i * cs)).take cs) with hblocks
  have hb0 : blocks.getD 0 [] = (padded.drop 0).take cs := by
    rw [hblocks]
    rw [List.getD_eq_getElem _ _ (by simp [K])]
    simp
  have hb0len : (blocks.getD 0 []).length = cs := by
    rw [hb0]
    simp only [List.drop_zero, List.length_take]
    have : cs ≤ cs * K := by
      simp only [K]
      omega
    omega
  show (zfecEncode blocks).getD j [] = _
  rw [zfecEncode]
  simp only [hb0len]
  rw [List.getD_eq_getElem _ _ (by simp [List.length_map, List.length_range]; exact hj)]
  simp [List.getElem_map, List.getElem_range]

set_option maxHeartbeats 1000000 in
/-- C4: the encode/decode round trip.  For every blob B of bytes
(including the empty and one-byte blobs), decoding any K = 4 of the M = 6
shards produced by encode_data B, supplied with their original 0..M-1
indices in any order together with the original size, returns exactly B. -/
theorem C4_encode_decode_roundtrip (B : List Nat) (hB : ∀ x ∈ B, x < 256)
    (sel : List Nat) (hlen : sel.length = 4) (hnd : sel.Nodup)
    (hsel : ∀ j ∈ sel, j < 6) :
    decode_data (sel.map (fun j => (encode_data B).getD j [])) sel B.length
      = Except.ok B := by
  have hK4 : K = 4 := rfl
  have hM6 : M = 6 := rfl
  have hnle : B.length ≤ chunkSize B.length * K := by
    simp only [chunkSize, K]
    have h1 := Nat.div_add_mod (B.length + 4 - 1) 4
    have h2 : (B.length + 4 - 1) % 4 < 4 := Nat.mod_lt _ (by norm_num)
    omega
  set cs := chunkSize B.length with hcs
  set padded := B ++ List.replicate (cs * K - B.length) 0 with hpad
  have hpadlen : padded.length = cs * K := by
    simp only [hpad, List.length_append, List.length_replicate]
    omega
  have hpadmem : ∀ x ∈ padded, x < 257 := by
    intro x hx
    rcases List.mem_append.1 hx with h | h
    · exact Nat.lt_trans (hB x h) (by norm_num)
    · rw [List.eq_of_mem_replicate h]
      norm_num
  have hpadval : ∀ j, padded.getD j 0 < 257 := by
    intro j
    by_cases hj : j < padded.length
    · rw [List.getD_eq_getElem _ _ hj]
      exact hpadmem _ (List.getElem_mem hj)
    · rw [List.getD_eq_getElem?_getD, List.getElem?_eq_none (by omega)]
      norm_num
  set blocks := (List.range K).map (fun i => (padded.drop (i * cs)).take cs) with hblocks
  -- byte t of block i as a field element
  have hbg : ∀ i, i < K → blocks.getD i [] = (padded.drop (i * cs)).take cs := by
    intro i hi
    rw [hblocks, List.getD_eq_getElem _ _ (by simpa using hi)]
    simp
  have hblockAt : ∀ i t, i < K → t < cs →
      blockAt blocks i t = ((padded.getD (i * cs + t) 0 : Nat) : F) := by
    intro i t hi ht
    rw [blockAt, hbg i hi, getD_take_of_lt _ _ _ _ ht, getD_drop]
  -- supplied shards
  set shards := sel.map (fun j => (encode_data B).getD j []) with hshards
  have hshlen : shards.length = 4 := by simp [hshards, hlen]
  have hshget : ∀ j ∈ sel, shards.getD (sel.indexOf j) []
      = (List.range cs).map (fun t => (shardByte blocks j t).val) := by
    intro j hj
    have hidx : sel.indexOf j < sel.length := List.indexOf_lt_length.2 hj
    rw [hshards, List.getD_eq_getElem _ _ (by simpa using hidx)]
    simp only [List.getElem_map]
    rw [List.getElem_indexOf hidx]
    exact encode_shard_get B j (hsel j hj)
  -- the shard byte values seen by the decoder
  have hsval : ∀ t, t < cs → ∀ j ∈ sel,
      sval shards sel j t = Finset.sum (Finset.range 4)
        (fun q => gcoef j q * ((padded.getD (q * cs + t) 0 : Nat) : F)) := by
    intro t ht j hj
    rw [sval, hshget j hj]
    rw [List.getD_eq_getElem _ _ (by simpa using ht)]
    simp only [List.getElem_map, List.getElem_range]
    rw [ZMod.natCast_val, ZMod.cast_id]
    rw [shardByte]
    apply Finset.sum_congr rfl
    intro q hq
    rw [hblockAt q t (List.mem_range.1 hq) ht]
  -- sel is nonempty, so the decoder's chunk size is cs
  have hsel0 : sel.indexOf (sel.headI) = 0 ∧ sel.headI ∈ sel := by
    match sel, hlen with
    | j :: rest, _ => exact ⟨by simp, by simp⟩
  have hcs0 : (shards.getD 0 []).length = cs := by
    rw [← hsel0.1, hshget _ hsel0.2]
    simp
  -- evaluate decode_data
  rw [decode_data]
  rw [if_neg (by omega)]
  have htksh : shards.take K = shards := List.take_of_length_le (by omega)
  have htksel : sel.take K = sel := List.take_of_length_le (by omega)
  rw [htksh, htksel, zfecDecode]
  rw [if_pos ⟨by omega, by omega, hnd, by intro j hj; simpa [M] using hsel j hj⟩]
  simp only [hcs0]
  have hrec : (List.range K).map (fun i => (List.range cs).map
        (fun t => (recoverF (fun j => sval shards sel j t) sel i).val))
      = (List.range K).map (fun i => (List.range cs).map
        (fun t => padded.getD (i * cs + t) 0)) := by
    apply List.map_congr_left
    intro i hi
    apply List.map_congr_left
    intro t ht
    have hi4 : i < 4 := by simpa [K] using List.mem_range.1 hi
    have htc : t < cs := List.mem_range.1 ht
    rw [recoverF_correct (fun q => ((padded.getD (q * cs + t) 0 : Nat) : F))
      (fun j => sval shards sel j t) sel hlen hnd hsel
      (fun j hj => hsval t htc j hj) i hi4]
    exact ZMod.val_cast_of_lt (hpadval _)
  rw [hrec]
  rw [chunks_flatten cs K padded (by rw [hpadlen]; ring)]
  rw [hpad]
  congr 1
  exact List.take_left' rfl

end EC


namespace Store

/-- Embedding of one entry of the serialized shard layout: a record with
index, node_id and shard_key, as built in upload_object (main.py) and
stored in the shards column.  JSON serialization is modelled as the
identity on this list. -/
structure ShardMeta where
  index : Nat
  node_id : String
  shard_key : String
deriving DecidableEq, Repr

/-- Embedding of a row of the objects table (class Object in metadata.py).
The content_hash column is filled by the separate UPDATE statement used in
main.py and s3_api.py, hence an Option. -/
structure ObjRow where
  id : Nat
  bucket_name : String
  object_key : String
  version_id : String
  is_latest : Bool
  size_bytes : Nat
  shards : List ShardMeta
  content_hash : Option String
deriving DecidableEq, Repr

/-- Embedding of a row of the content_store table (content_hash,
size_bytes, shards, refcount). -/
structure ContentRow where
  content_hash : String
  size_bytes : Nat
  shards : List ShardMeta
  refcount : Nat
deriving DecidableEq, Repr

/-- The durable metadata state: the objects and content_store tables,
plus counters modelling the freshness of SERIAL row ids and of uuid4
version ids. -/
structure MetaState where
  objects : List ObjRow
  contents : List ContentRow
  nextId : Nat
  nextVersion : Nat
deriving DecidableEq, Repr

/-- Fresh uuid4 version ids are modelled by a counter rendered to a
string: distinct counter values give distinct ids. -/
def mkVersionId (n : Nat) : String := "uuid-" ++ toString n

/-- The flip performed inside put_object_metadata (metadata.py): the first
row returned by the is_latest query for (bucket, key) has its is_latest
flag set to false. -/
def flipFirstLatest (bucket key : String) : List ObjRow → List ObjRow
  | [] => []
  | r :: rs =>
      if r.bucket_name = bucket ∧ r.object_key = key ∧ r.is_latest = true then
        { r with is_latest := false } :: rs
      else
        r :: flipFirstLatest bucket key rs

/-- Embedding of MetadataManager.put_object_metadata from metadata.py: in
one transaction, flip the existing latest row of (bucket, key) to
is_latest = false and insert a new row with a fresh uuid4 version id and
is_latest = true.  Returns the new state together with the inserted row. -/
def put_object_metadata (s : MetaState) (bucket key : String) (size : Nat)
    (shards : List ShardMeta) : MetaState × ObjRow :=
  let row : ObjRow :=
    { id := s.nextId, bucket_name := bucket, object_key := key,
      version_id := mkVersionId s.nextVersion, is_latest := true,
      size_bytes := size, shards := shards, content_hash := none }
  ({ objects := flipFirstLatest bucket key s.objects ++ [row],
     contents := s.contents,
     nextId := s.nextId + 1, nextVersion := s.nextVersion + 1 }, row)

/-- Embedding of MetadataManager.get_object_metadata from metadata.py: the
exact (bucket, key, version_id) row when a version id is supplied,
otherwise the is_latest row. -/
def get_object_metadata (s : MetaState) (bucket key : String)
    (version : Option String) : Option ObjRow :=
  match version with
  | some v => s.objects.find? (fun r =>
      decide (r.bucket_name = bucket ∧ r.object_key = key ∧ r.version_id = v))
  | none => s.objects.find? (fun r =>
      decide (r.bucket_name = bucket ∧ r.object_key = key ∧ r.is_latest = true))

/-- Removal of the first is_latest row of (bucket, key), as performed by
delete_object_metadata (metadata.py). -/
def removeFirstLatest (bucket key : String) : List ObjRow → List ObjRow
  | [] => []
  | r :: rs =>
      if r.bucket_name = bucket ∧ r.object_key = key ∧ r.is_latest = true then rs
      else r :: removeFirstLatest bucket key rs

/-- Embedding of MetadataManager.delete_object_metadata from metadata.py:
delete the latest version row of (bucket, key) if one exists; the Boolean
reports whether a row was deleted.  No other row is touched and no other
version is promoted to latest. -/
def delete_object_metadata (s : MetaState) (bucket key : String) :
    MetaState × Bool :=
  match get_object_metadata s bucket key none with
  | some _ => ({ s with objects := removeFirstLatest bucket key s.objects }, true)
  | none => (s, false)

/-- Number of rows of (bucket, key) carrying is_latest = true. -/
def latestCount (rows : List ObjRow) (bucket key : String) : Nat :=
  rows.countP (fun r =>
    decide (r.bucket_name = bucket ∧ r.object_key = key ∧ r.is_latest = true))

/-- SELECT of the content_store row for a content hash. -/
def lookupContent (s : MetaState) (hash : String) : Option ContentRow :=
  s.contents.find? (fun c => decide (c.content_hash = hash))

/-- UPDATE content_store SET refcount = refcount + 1 WHERE content_hash =
hash, as executed on a dedup hit in main.py and s3_api.py. -/
def incrRefcount (s : MetaState) (hash : String) : MetaState :=
  { s with contents := s.contents.map (fun c =>
      if c.content_hash = hash then { c with refcount := c.refcount + 1 } else c) }

/-- UPDATE objects SET content_hash = hash WHERE id = obj_id, as executed
after put_object_metadata in main.py and s3_api.py. -/
def setContentHash (s : MetaState) (objId : Nat) (hash : String) : MetaState :=
  { s with objects := s.objects.map (fun r =>
      if r.id = objId then { r with content_hash := some hash } else r) }

/-- INSERT INTO content_store (content_hash, size_bytes, shards, refcount)
VALUES (hash, size, shards, 1), as executed on a dedup miss. -/
def insertContent (s : MetaState) (hash : String) (size : Nat)
    (shards : List ShardMeta) : MetaState :=
  { s with contents := s.contents ++
      [{ content_hash := hash, size_bytes := size, shards := shards, refcount := 1 }] }

end Store

/-- One HTTP call issued against a storage node. -/
inductive StorageOp
  | put (node_id : String) (bucket : String) (shard_key : String)
  | delete (node_id : String) (bucket : String) (shard_key : String)
deriving DecidableEq, Repr

namespace Config

/-- Embedding of NodeInfo from config.py.  The pydantic model declares only
the fields node_id and base_url; in particular no region attribute
exists. -/
structure NodeInfo where
  node_id : String
  base_url : String
deriving DecidableEq, Repr

/-- The static placement configuration of config.py: the declared global
node order NODES_LIST and the region table REGIONS. -/
structure Registry where
  nodesList : List NodeInfo
  regions : List (String × List String)
deriving DecidableEq, Repr

/-- Lookup of a region name in REGIONS. -/
def lookupRegion (reg : Registry) (r : String) : Option (List String) :=
  (reg.regions.find? (fun p => decide (p.1 = r))).map (fun p => p.2)

/-- Lookup of a node id in the NODES dictionary built from NODES_LIST. -/
def findNode (reg : Registry) (nid : String) : Option NodeInfo :=
  reg.nodesList.find? (fun n => decide (n.node_id = nid))

/-- Embedding of get_nodes_for_shards from config.py (lines 52-73): fail
with HTTP 500 when count exceeds the registry; with no usable region
preference return the first count nodes in declared global order;
otherwise take the preferred region's nodes first and fill from the rest
of the global order.  A falsy (empty) region string behaves like an absent
one, as in the Python truthiness test. -/
def get_nodes_for_shards (reg : Registry) (count : Nat)
    (preferred_region : Option String) : Except Nat (List NodeInfo) :=
  if reg.nodesList.length < count then Except.error 500
  else
    match preferred_region with
    | none => Except.ok (reg.nodesList.take count)
    | some r =>
        if r = "" then Except.ok (reg.nodesList.take count)
        else
          match lookupRegion reg r with
          | none => Except.ok (reg.nodesList.take count)
          | some ids =>
              let preferred := ids.filterMap (fun nid => findNode reg nid)
              if count ≤ preferred.length then Except.ok (preferred.take count)
              else
                Except.ok (preferred ++
                  (reg.nodesList.filter
                    (fun n => decide (¬ n.node_id ∈ ids))).take
                      (count - preferred.length))

/-- The default six-node registry and region table from config.py. -/
def defaultRegistry : Registry :=
  { nodesList :=
      [{ node_id := "node1", base_url := "http://localhost:9001" },
       { node_id := "node2", base_url := "http://localhost:9002" },
       { node_id := "node3", base_url := "http://localhost:9003" },
       { node_id := "node4", base_url := "http://localhost:9004" },
       { node_id := "node5", base_url := "http://localhost:9005" },
       { node_id := "node6", base_url := "http://localhost:9006" }],
    regions :=
      [("us-east", ["node1", "node2"]),
       ("eu-west", ["node3", "node4"]),
       ("ap-south", ["node5", "node6"])] }

end Config


namespace Quota

/-- Quota limits of a bucket (a bucket_quotas row, or the defaults). -/
structure QuotaLimits where
  max_size_bytes : Nat
  max_objects : Nat
deriving DecidableEq, Repr

/-- Defaults of QuotaManager(default_max_size_gb = 10.0,
default_max_objects = 10000) from quota_manager.py. -/
def default_limits : QuotaLimits :=
  { max_size_bytes := 10 * 1024 * 1024 * 1024, max_objects := 10000 }

/-- Embedding of QuotaManager.get_quota: the bucket_quotas row when
present, otherwise the defaults. -/
def get_quota (quotas : List (String × QuotaLimits)) (bucket : String) :
    QuotaLimits :=
  match quotas.find? (fun q => decide (q.1 = bucket)) with
  | some q => q.2
  | none => default_limits

/-- Current usage of a bucket: the count of is_latest rows, as computed by
the SELECT in check_quota (quota_manager.py). -/
def currentObjects (s : Store.MetaState) (bucket : String) : Nat :=
  (s.objects.filter (fun r =>
    decide (r.bucket_name = bucket ∧ r.is_latest = true))).length

/-- Current usage of a bucket: the summed size_bytes of is_latest rows. -/
def currentSize (s : Store.MetaState) (bucket : String) : Nat :=
  ((s.objects.filter (fun r =>
    decide (r.bucket_name = bucket ∧ r.is_latest = true))).map
      (fun r => r.size_bytes)).sum

/-- The HTTPException raised by check_quota, with the values carried in
the X-Quota-Used and X-Quota-Limit response headers. -/
structure QuotaErr where
  status : Nat
  used : Nat
  limit : Nat
deriving DecidableEq, Repr

/-- Embedding of QuotaManager.check_quota from quota_manager.py: project
the proposed write onto current latest-version usage and raise
HTTPException 507 when a limit would be exceeded.  The projected object
count is increased only when additional_size > 0, exactly as in the
source expression (1 if additional_size > 0 else 0). -/
def check_quota (s : Store.MetaState) (quotas : List (String × QuotaLimits))
    (bucket : String) (additional_size : Nat) : Except QuotaErr Unit :=
  let quota := get_quota quotas bucket
  let new_size := currentSize s bucket + additional_size
  let new_objects := currentObjects s bucket +
    (if 0 < additional_size then 1 else 0)
  if quota.max_size_bytes < new_size then
    Except.error { status := 507, used := new_size, limit := quota.max_size_bytes }
  else if quota.max_objects < new_objects then
    Except.error { status := 507, used := new_objects, limit := quota.max_objects }
  else
    Except.ok ()

end Quota

namespace Gateway

/-- Errors a Python expression of main.py can raise in the embedded
fragments: an unresolved name, a missing attribute, or a raised
HTTPException with a status code. -/
inductive PyError
  | nameError (name : String)
  | attributeError (attr : String)
  | httpException (code : Nat)
deriving DecidableEq, Repr

/-- Names bound at module level in gateway/main.py by its import
statements and top-level definitions.  The list is taken from the source;
the name random is not in it, because main.py never imports random. -/
def mainModuleNames : List String :=
  ["json", "os", "time", "asyncio", "List", "Optional", "Dict", "requests",
   "FastAPI", "UploadFile", "File", "HTTPException", "Depends",
   "StreamingResponse", "JSONResponse", "CORSMiddleware", "BaseModel",
   "MetadataManager", "Object", "Bucket", "ec", "NodeInfo", "NODES",
   "NODES_LIST", "get_nodes_for_shards", "manager", "GCScheduler",
   "_gc_scheduler", "WebSocket", "WebSocketDisconnect", "logging",
   "logger", "app", "RateLimitMiddleware", "rate_limiter",
   "gc_scheduler_instance", "health_monitor_instance", "startup_event",
   "shutdown_event", "websocket_endpoint", "s3_router", "meta_mgr",
   "authenticate_user", "create_user", "create_access_token", "Token",
   "UserCreate", "get_current_user", "update_last_login",
   "OAuth2PasswordRequestForm", "timedelta", "register", "login",
   "get_me", "BucketCreate", "BucketInfo", "ObjectInfoSchema", "health",
   "list_nodes", "get_metrics", "get_gc_status", "get_regions",
   "get_node_health", "get_bucket_quota", "set_bucket_quota",
   "create_bucket", "list_buckets", "list_objects", "upload_object",
   "download_object", "delete_object", "mp_manager",
   "initiate_multipart", "upload_part", "complete_multipart",
   "abort_multipart", "run_gc", "trigger_gc"]

/-- Attributes declared by the pydantic model config.NodeInfo: node_id and
base_url only. -/
def nodeInfoAttrs : List String := ["node_id", "base_url"]

/-- Python attribute access n.region on a config.NodeInfo instance: the
class declares no region field, so the access raises AttributeError. -/
def getRegionAttr (_n : Config.NodeInfo) : Except PyError String :=
  if "region" ∈ nodeInfoAttrs then Except.ok ""
  else Except.error (PyError.attributeError "region")

/-- Evaluation of random.shuffle(xs) inside main.py: the name random is
looked up in the module namespace and raises NameError when absent.  The
shuffle itself is modelled as the identity permutation; that branch is
unreachable because random is never bound in main.py. -/
def evalRandomShuffle (xs : List Config.NodeInfo) :
    Except PyError (List Config.NodeInfo) :=
  if "random" ∈ mainModuleNames then Except.ok xs
  else Except.error (PyError.nameError "random")

/-- The list comprehension of main.py line 216,
region_nodes = [n for n in available_nodes if n.region == preferred_region]:
it evaluates n.region for each element in order and therefore raises
AttributeError at the first element. -/
def filterByRegion (nodes : List Config.NodeInfo) (r : String) :
    Except PyError (List Config.NodeInfo) :=
  match nodes with
  | [] => Except.ok []
  | n :: rest =>
      match getRegionAttr n with
      | Except.error e => Except.error e
      | Except.ok reg =>
          match filterByRegion rest r with
          | Except.error e => Except.error e
          | Except.ok tail => Except.ok (if reg = r then n :: tail else tail)

/-- Embedding of the get_nodes_for_shards defined in main.py lines 203-232,
which shadows the function imported from config.py and is the one used by
upload_object and complete_multipart.  With a truthy preferred region it
first evaluates the region comprehension (attribute access n.region),
then random.shuffle; with no region it goes directly to
random.shuffle(other_nodes) whenever nodes are still needed. -/
def main_get_nodes_for_shards (nodes : List Config.NodeInfo) (count : Nat)
    (preferred_region : Option String) : Except PyError (List Config.NodeInfo) :=
  if nodes.length < count then Except.error (PyError.httpException 500)
  else
    let step1 : Except PyError (List Config.NodeInfo) :=
      match preferred_region with
      | none => Except.ok []
      | some r =>
          if r = "" then Except.ok []
          else
            match filterByRegion nodes r with
            | Except.error e => Except.error e
            | Except.ok regionNodes =>
                match evalRandomShuffle regionNodes with
                | Except.error e => Except.error e
                | Except.ok shuffled => Except.ok (shuffled.take count)
    match step1 with
    | Except.error e => Except.error e
    | Except.ok selected =>
        if selected.length < count then
          match evalRandomShuffle (nodes.filter
              (fun n => decide (¬ n ∈ selected))) with
          | Except.error e => Except.error e
          | Except.ok shuffled =>
              let selected2 := selected ++ shuffled.take (count - selected.length)
              if selected2.length < count then
                Except.error (PyError.httpException 500)
              else Except.ok selected2
        else Except.ok selected

/-- Embedding of the shard key computed inside upload_shard in
upload_object (main.py line 514) and in complete_multipart (line 735):
the f-string key.bucket.shard-i.  Only the bucket name, the object key and
the shard index enter the key; the payload of the write (and hence any
per-write identity) does not, which the unused argument makes explicit. -/
def upload_shard_key (bucket key : String) (_file_bytes : List Nat)
    (i : Nat) : String :=
  key ++ "." ++ bucket ++ ".shard-" ++ toString i

/-- Embedding of the shard key of upload_shard_real in s3_api.py line 230:
key/upload_uuid/i, where upload_uuid is a fresh uuid4 generated per
write. -/
def s3_shard_key (key upload_uuid : String) (i : Nat) : String :=
  key ++ "/" ++ upload_uuid ++ "/" ++ toString i

/-- Response fields of upload_object relevant to the claims. -/
structure UploadResponse where
  version_id : String
  deduplicated : Bool
  content_hash : String
deriving DecidableEq, Repr

/-- Embedding of the deduplication branch of upload_object (main.py lines
450-501): when a content_store row for the hash exists, bump its refcount
(first transaction), insert a new object version re-using the existing
shard layout via put_object_metadata (second transaction, which flips the
prior latest and inserts atomically), stamp the content hash onto the new
row, and return deduplicated = true.  The branch contains no storage-node
request; the returned operation list is the list of storage calls it
issues, which is empty. -/
def upload_object_dedup_hit (s : Store.MetaState)
    (bucket key content_hash : String) (size : Nat) :
    Option (Store.MetaState × UploadResponse × List StorageOp) :=
  match Store.lookupContent s content_hash with
  | none => none
  | some c =>
      let s1 := Store.incrRefcount s content_hash
      let s2row := Store.put_object_metadata s1 bucket key size c.shards
      let s3 := Store.setContentHash s2row.1 s2row.2.id content_hash
      some (s3, { version_id := s2row.2.version_id, deduplicated := true,
                  content_hash := content_hash }, [])

/-- Result of one shard PUT as collected by upload_shard in main.py. -/
structure ShardResult where
  success : Bool
  index : Nat
  node_id : String
  shard_key : String
deriving DecidableEq, Repr

/-- quorum_size = 4 if consistency == "strong" else total_shards
(main.py line 511). -/
def quorum_size (consistency : String) (total : Nat) : Nat :=
  if consistency = "strong" then 4 else total

/-- Outcome of the quorum section of upload_object: the shard layout
committed to metadata (when quorum was met), the HTTP error status raised
otherwise, and the storage-node calls issued by this section. -/
structure CommitOutcome where
  committed : Option (List Store.ShardMeta)
  status : Option Nat
  cleanupOps : List StorageOp
deriving DecidableEq, Repr

/-- Embedding of the quorum check and commit section of upload_object
(main.py lines 539-548): the successful results are filtered; when fewer
than quorum_size succeeded the handler raises HTTPException 502
immediately and issues no further storage call (in particular no DELETE of
the shards that did succeed); otherwise the layout recorded in metadata is
built from the successful results only. -/
def upload_commit (consistency : String) (results : List ShardResult) :
    CommitOutcome :=
  let total := results.length
  let successful := results.filter (fun r => r.success)
  if successful.length < quorum_size consistency total then
    { committed := none, status := some 502, cleanupOps := [] }
  else
    { committed := some (successful.map (fun r =>
        { index := r.index, node_id := r.node_id, shard_key := r.shard_key })),
      status := none, cleanupOps := [] }

/-- Embedding of the DELETE handler delete_object from main.py lines
661-696: look up the latest version, issue a best-effort DELETE for each
of its shards whose node id is in the registry, then remove the metadata
row via delete_object_metadata.  The content_store table is never read or
written: no refcount is decremented and no ContentRow is deleted. -/
def delete_object (registry : List String) (s : Store.MetaState)
    (bucket key : String) : Store.MetaState × List StorageOp × Bool :=
  match Store.get_object_metadata s bucket key none with
  | none => (s, [], false)
  | some obj =>
      let ops := (obj.shards.filter
          (fun sm => decide (sm.node_id ∈ registry))).map
        (fun sm => StorageOp.delete sm.node_id bucket sm.shard_key)
      ((Store.delete_object_metadata s bucket key).1, ops, true)

/-- Embedding of cleanup_by_age from gc_service.py lines 77-112: every row
with is_latest = false whose age test passes has its shards deleted
best-effort and its row removed; the content_store table is never
consulted, so no refcount discipline is applied.  The age test
(created_at < cutoff) is abstracted as a Boolean predicate on rows. -/
def cleanup_by_age (registry : List String) (old : Store.ObjRow → Bool)
    (s : Store.MetaState) : Store.MetaState × List StorageOp :=
  let victims := s.objects.filter (fun r => (!r.is_latest) && old r)
  let ops := (victims.map (fun r =>
    (r.shards.filter (fun sm => decide (sm.node_id ∈ registry))).map
      (fun sm => StorageOp.delete sm.node_id r.bucket_name sm.shard_key))).flatten
  let survivors := s.objects.filter (fun r => !((!r.is_latest) && old r))
  ({ s with objects := survivors }, ops)

end Gateway


/-! Concrete fixtures used by individual claims. -/

/-- Shard layout of the C2 fixture. -/
def c2Shards : List Store.ShardMeta :=
  [{ index := 0, node_id := "node1", shard_key := "k.b.shard-0" }]

/-- C2 fixture: two versions of b/k share one deduplicated content row of
refcount 2. -/
def c2State : Store.MetaState :=
  { objects :=
      [{ id := 1, bucket_name := "b", object_key := "k", version_id := "uuid-1",
         is_latest := false, size_bytes := 3, shards := c2Shards,
         content_hash := some "h" },
       { id := 2, bucket_name := "b", object_key := "k", version_id := "uuid-2",
         is_latest := true, size_bytes := 3, shards := c2Shards,
         content_hash := some "h" }],
    contents := [{ content_hash := "h", size_bytes := 3, shards := c2Shards,
                   refcount := 2 }],
    nextId := 3, nextVersion := 3 }

/-- Shard results of the C5 counterexample: three PUTs succeeded, three
failed. -/
def c5Results : List Gateway.ShardResult :=
  [{ success := true, index := 0, node_id := "node1", shard_key := "a0" },
   { success := true, index := 1, node_id := "node2", shard_key := "a1" },
   { success := true, index := 2, node_id := "node3", shard_key := "a2" },
   { success := false, index := 3, node_id := "node4", shard_key := "a3" },
   { success := false, index := 4, node_id := "node5", shard_key := "a4" },
   { success := false, index := 5, node_id := "node6", shard_key := "a5" }]

/-- Shard results of the C5 witness: four PUTs succeeded, two failed. -/
def c5WitnessResults : List Gateway.ShardResult :=
  [{ success := true, index := 0, node_id := "node1", shard_key := "b0" },
   { success := true, index := 1, node_id := "node2", shard_key := "b1" },
   { success := true, index := 2, node_id := "node3", shard_key := "b2" },
   { success := true, index := 3, node_id := "node4", shard_key := "b3" },
   { success := false, index := 4, node_id := "node5", shard_key := "b4" },
   { success := false, index := 5, node_id := "node6", shard_key := "b5" }]

/-- C8 fixture: bucket b holds one latest object of 10 bytes and has a
custom quota of 100 bytes and at most 1 object. -/
def c8State : Store.MetaState :=
  { objects :=
      [{ id := 1, bucket_name := "b", object_key := "k", version_id := "uuid-1",
         is_latest := true, size_bytes := 10, shards := [],
         content_hash := none }],
    contents := [], nextId := 2, nextVersion := 2 }

def c8Quotas : List (String × Quota.QuotaLimits) :=
  [("b", { max_size_bytes := 100, max_objects := 1 })]

/-- C1 (code bug): the shard key of the primary upload path (main.py,
upload_shard) is derived from the object key, the bucket name and the
shard index only.  Two writes with different payloads to the same
(bucket, key) therefore produce identical per-node object keys: no
per-write nonce enters the key, contradicting the mandated
bucket/key/upload_nonce/i scheme. -/
theorem C1_main_shard_key_has_no_nonce :
    Gateway.upload_shard_key "b" "k" [0] 0 = "k.b.shard-0" ∧
    Gateway.upload_shard_key "b" "k" [1] 0 = Gateway.upload_shard_key "b" "k" [0] 0 := by
  exact ⟨rfl, rfl⟩

/-- C2 (code bug): deleting the latest version of b/k in a state whose
content row has refcount 2 issues a storage DELETE for the shard while the
content_store row still carries refcount 2: delete_object never reads or
decrements the refcount, so shard data is destroyed while other versions
still reference it. -/
theorem C2_delete_ignores_refcount :
    (Gateway.delete_object ["node1"] c2State "b" "k").2.1
        = [StorageOp.delete "node1" "b" "k.b.shard-0"] ∧
    (Gateway.delete_object ["node1"] c2State "b" "k").1.contents
        = c2State.contents ∧
    Store.lookupContent c2State "h"
        = some { content_hash := "h", size_bytes := 3, shards := c2Shards,
                 refcount := 2 } := by
  exact ⟨rfl, rfl, rfl⟩

/-- C5 (amended): the quorum section of upload_object commits exactly when
at least quorum_size of the shard PUTs succeeded, with quorum_size = 4
under strong consistency and the total shard count otherwise; on failure
it raises HTTP 502; only the successful results are recorded; and no
cleanup DELETE of already persisted shards is issued on the failure
path. -/
theorem C5_quorum_commit (consistency : String)
    (results : List Gateway.ShardResult) :
    ((Gateway.upload_commit consistency results).committed.isSome ↔
      Gateway.quorum_size consistency results.length ≤
        (results.filter (fun r => r.success)).length) ∧
    ((Gateway.upload_commit consistency results).committed.isSome →
      (Gateway.upload_commit consistency results).committed
        = some ((results.filter (fun r => r.success)).map (fun r =>
            { index := r.index, node_id := r.node_id,
              shard_key := r.shard_key })) ∧
      (Gateway.upload_commit consistency results).status = none) ∧
    ((results.filter (fun r => r.success)).length <
        Gateway.quorum_size consistency results.length →
      (Gateway.upload_commit consistency results).committed = none ∧
      (Gateway.upload_commit consistency results).status = some 502) ∧
    (Gateway.upload_commit consistency results).cleanupOps = [] ∧
    (consistency = "strong" →
      Gateway.quorum_size consistency results.length = 4) ∧
    (consistency ≠ "strong" →
      Gateway.quorum_size consistency results.length = results.length) := by
  have hq1 : consistency = "strong" →
      Gateway.quorum_size consistency results.length = 4 := by
    intro hc
    simp [Gateway.quorum_size, hc]
  have hq2 : consistency ≠ "strong" →
      Gateway.quorum_size consistency results.length = results.length := by
    intro hc
    simp [Gateway.quorum_size, hc]
  by_cases h : (results.filter (fun r => r.success)).length <
      Gateway.quorum_size consistency results.length
  · have hval : Gateway.upload_commit consistency results
        = { committed := none, status := some 502, cleanupOps := [] } := by
      simp only [Gateway.upload_commit, if_pos h]
    rw [hval]
    refine ⟨by simp; omega, by simp, fun _ => ⟨rfl, rfl⟩, rfl, hq1, hq2⟩
  · have hval : Gateway.upload_commit consistency results
        = ⟨some ((results.filter (fun r => r.success)).map
            (fun r => ⟨r.index, r.node_id, r.shard_key⟩)), none, []⟩ := by
      simp only [Gateway.upload_commit, if_neg h]
    rw [hval]
    refine ⟨by simp; omega, fun _ => ⟨rfl, rfl⟩, fun hlt => absurd hlt h, rfl,
      hq1, hq2⟩

theorem C5_witness :
    (Gateway.upload_commit "strong" c5WitnessResults).committed
      = some ((c5WitnessResults.filter (fun r => r.success)).map (fun r =>
          { index := r.index, node_id := r.node_id,
            shard_key := r.shard_key })) := by
  have h := C5_quorum_commit "strong" c5WitnessResults
  exact (h.2.1 (h.1.2 (by decide))).1

/-- C5 counterexample: a strong-consistency write with three successful
shard PUTs fails the quorum of four with HTTP 502, yet the failure path
issues no DELETE at all for the three shards that were persisted. -/
theorem C5_counterexample :
    (Gateway.upload_commit "strong" c5Results).status = some 502 ∧
    (c5Results.filter (fun r => r.success)).length = 3 ∧
    (Gateway.upload_commit "strong" c5Results).cleanupOps = [] := by
  exact ⟨rfl, rfl, rfl⟩

/-- C8 (amended): check_quota fails with HTTPException 507 carrying the
projected usage and the limit exactly when the projected size exceeds the
size limit or the projected object count exceeds the object limit, where
the projected object count adds one only for writes of positive size.
The check depends only on the bucket usage and the write size, so
deduplicated and non-deduplicated writes are treated alike. -/
theorem C8_quota_gate (s : Store.MetaState)
    (quotas : List (String × Quota.QuotaLimits)) (bucket : String)
    (size : Nat) :
    (¬ ((Quota.get_quota quotas bucket).max_size_bytes <
          Quota.currentSize s bucket + size ∨
        (Quota.get_quota quotas bucket).max_objects <
          Quota.currentObjects s bucket + (if 0 < size then 1 else 0)) →
      Quota.check_quota s quotas bucket size = Except.ok ()) ∧
    ((Quota.get_quota quotas bucket).max_size_bytes <
        Quota.currentSize s bucket + size →
      Quota.check_quota s quotas bucket size
        = Except.error ⟨507, Quota.currentSize s bucket + size,
            (Quota.get_quota quotas bucket).max_size_bytes⟩) ∧
    (¬ ((Quota.get_quota quotas bucket).max_size_bytes <
          Quota.currentSize s bucket + size) →
      (Quota.get_quota quotas bucket).max_objects <
        Quota.currentObjects s bucket + (if 0 < size then 1 else 0) →
      Quota.check_quota s quotas bucket size
        = Except.error ⟨507, Quota.currentObjects s bucket +
            (if 0 < size then 1 else 0),
            (Quota.get_quota quotas bucket).max_objects⟩) := by
  refine ⟨?_, ?_, ?_⟩
  · intro h
    push_neg at h
    obtain ⟨h1, h2⟩ := h
    simp only [Quota.check_quota]
    rw [if_neg (by omega), if_neg (by omega)]
  · intro h
    simp only [Quota.check_quota]
    rw [if_pos h]
  · intro h1 h2
    simp only [Quota.check_quota]
    rw [if_neg h1, if_pos h2]

theorem C8_witness :
    Quota.check_quota c8State c8Quotas "b" 5
      = Except.error ⟨507, 2, 1⟩ := by
  have h := (C8_quota_gate c8State c8Quotas "b" 5).2.2 (by decide) (by decide)
  exact h.trans rfl

/-- C8 counterexample: bucket b is at its object limit (1 of 1), and a
write of size 0 to a new key projects to 2 objects, beyond the limit; yet
check_quota accepts it, because the source only counts the write toward
the object projection when additional_size > 0. -/
theorem C8_counterexample :
    Quota.check_quota c8State c8Quotas "b" 0 = Except.ok () ∧
    (Quota.get_quota c8Quotas "b").max_objects <
      Quota.currentObjects c8State "b" + 1 := by
  exact ⟨rfl, by decide⟩

/-- C10: placement through config.py get_nodes_for_shards is a pure
function of (registry, count, preferred_region) - the source consults no
randomness or mutable state, so two calls with the same arguments against
the same registry return the same list - and whenever the preferred
region is unset, empty or unknown, the result is exactly the first count
nodes of the registry in declared global order. -/
theorem C10_placement_deterministic (reg : Config.Registry) (count : Nat)
    (preferred : Option String) (hcount : count ≤ reg.nodesList.length)
    (hregion : preferred = none ∨ preferred = some "" ∨
      ∃ r, preferred = some r ∧ Config.lookupRegion reg r = none) :
    Config.get_nodes_for_shards reg count preferred
      = Except.ok (reg.nodesList.take count) := by
  unfold Config.get_nodes_for_shards
  rw [if_neg (by omega)]
  rcases hregion with rfl | rfl | ⟨r, rfl, hr⟩
  · rfl
  · simp
  · by_cases hre : r = ""
    · simp [hre]
    · simp [hre, hr]

theorem C10_witness :
    Config.get_nodes_for_shards Config.defaultRegistry 6 (some "nowhere")
      = Except.ok (Config.defaultRegistry.nodesList.take 6) := by
  exact C10_placement_deterministic Config.defaultRegistry 6 (some "nowhere")
    (by decide) (Or.inr (Or.inr ⟨"nowhere", rfl, by decide⟩))

/-- C3 (amended): every call of the get_nodes_for_shards defined in
main.py with a positive count within capacity raises an uncaught Python
error, so every dedup-miss write through the primary PUT endpoint or
multipart complete fails with an internal error before any shard is
stored: NameError on the unimported name random when the region hint is
absent or empty (the default, and the multipart path), and AttributeError
on the missing NodeInfo.region attribute when a truthy region hint is
supplied. -/
theorem C3_node_selection_raises (nodes : List Config.NodeInfo) (count : Nat)
    (preferred : Option String) (hpos : 0 < count)
    (hle : count ≤ nodes.length) :
    Gateway.main_get_nodes_for_shards nodes count preferred
      = Except.error (match preferred with
        | none => Gateway.PyError.nameError "random"
        | some r =>
            if r = "" then Gateway.PyError.nameError "random"
            else Gateway.PyError.attributeError "region") := by
  have hrand : ¬ ("random" ∈ Gateway.mainModuleNames) := by decide
  unfold Gateway.main_get_nodes_for_shards
  rw [if_neg (by omega)]
  have hz : count ≠ 0 := by omega
  rcases preferred with _ | r
  · simp [Gateway.evalRandomShuffle, hrand, hz]
  · by_cases hre : r = ""
    · subst hre
      simp [Gateway.evalRandomShuffle, hrand, hz]
    · have hne : nodes ≠ [] := by
        intro hnil
        rw [hnil] at hle
        simp at hle
        omega
      obtain ⟨n, rest, rfl⟩ := List.exists_cons_of_ne_nil hne
      simp [hre, Gateway.filterByRegion, Gateway.getRegionAttr,
        Gateway.nodeInfoAttrs]

theorem C3_witness :
    Gateway.main_get_nodes_for_shards Config.defaultRegistry.nodesList 6 none
      = Except.error (Gateway.PyError.nameError "random") := by
  exact C3_node_selection_raises Config.defaultRegistry.nodesList 6 none
    (by decide) (by decide)

/-- C3 counterexample: a dedup-miss write carrying the region hint us-east
does not fail with the claimed NameError: the region comprehension
evaluates n.region before random.shuffle is reached, and config.NodeInfo
has no region attribute, so the failure is an AttributeError instead. -/
theorem C3_counterexample :
    Gateway.main_get_nodes_for_shards Config.defaultRegistry.nodesList 6
        (some "us-east")
      = Except.error (Gateway.PyError.attributeError "region") ∧
    Gateway.PyError.attributeError "region"
      ≠ Gateway.PyError.nameError "random" := by
  exact ⟨rfl, by decide⟩

/-- C9 (amended): decode_data fails whenever fewer than K = 4 shards are
supplied, or the first K entries of the index list contain a duplicate or
an index outside 0..M-1.  Entries of the index list beyond the first K are
ignored by the source (shards[:K], shard_nums[:K]). -/
theorem C9_decode_failure (shards : List (List Nat)) (nums : List Nat)
    (size : Nat)
    (h : shards.length < 4 ∨ ¬ (nums.take 4).Nodup ∨
      ∃ j ∈ nums.take 4, 6 ≤ j) :
    (EC.decode_data shards nums size).isOk = false := by
  unfold EC.decode_data
  by_cases hlen : shards.length < EC.K
  · rw [if_pos hlen]
    rfl
  · rw [if_neg hlen]
    have hcond : ¬ ((nums.take EC.K).length = EC.K ∧
        (shards.take EC.K).length = EC.K ∧ (nums.take EC.K).Nodup ∧
        ∀ j ∈ nums.take EC.K, j < EC.M) := by
      have hK : EC.K = 4 := rfl
      have hM : EC.M = 6 := rfl
      rw [hK, hM]
      rcases h with h | h | ⟨j, hj, hj6⟩
      · exact absurd (hK ▸ h) hlen
      · intro hc
        exact h hc.2.2.1
      · intro hc
        have := hc.2.2.2 j hj
        omega
    rw [EC.zfecDecode, if_neg hcond]
    rfl

theorem C9_witness :
    (EC.decode_data [[1], [2], [3], [4]] [0, 0, 1, 2] 1).isOk = false := by
  exact C9_decode_failure [[1], [2], [3], [4]] [0, 0, 1, 2] 1
    (Or.inr (Or.inl (by decide)))

/-- C9 counterexample: with five shards supplied and the duplicate index 3
appearing in position four, the index list contains duplicates yet
decode_data succeeds, because the source truncates both lists to the first
K = 4 entries before decoding. -/
theorem C9_counterexample :
    EC.decode_data [[1], [2], [3], [4], [4]] [0, 1, 2, 3, 3] 4
      = Except.ok [1, 2, 3, 4] ∧
    ¬ ([0, 1, 2, 3, 3] : List Nat).Nodup := by
  constructor
  · rfl
  · decide


namespace Store

lemma latestCount_nil (bucket key : String) : latestCount [] bucket key = 0 := rfl

lemma latestCount_flip_self (bucket key : String) (rows : List ObjRow)
    (h : latestCount rows bucket key ≤ 1) :
    latestCount (flipFirstLatest bucket key rows) bucket key = 0 := by
  induction rows with
  | nil => rfl
  | cons r rs ih =>
      by_cases hr : r.bucket_name = bucket ∧ r.object_key = key ∧ r.is_latest = true
      · have h2 : latestCount rs bucket key = 0 := by
          simp [latestCount, List.countP_cons, hr] at h
          simpa [latestCount] using h
        simp [flipFirstLatest, if_pos hr, latestCount, List.countP_cons]
        simpa [latestCount] using h2
      · simp only [flipFirstLatest, if_neg hr]
        have hle : latestCount rs bucket key ≤ 1 := by
          simp [latestCount, List.countP_cons, hr] at h
          simpa [latestCount] using h
        have := ih hle
        simp [latestCount, List.countP_cons, hr] at this ⊢
        simpa [latestCount] using this

lemma latestCount_flip_other (bucket key b2 k2 : String) (rows : List ObjRow)
    (hne : ¬ (b2 = bucket ∧ k2 = key)) :
    latestCount (flipFirstLatest bucket key rows) b2 k2
      = latestCount rows b2 k2 := by
  induction rows with
  | nil => rfl
  | cons r rs ih =>
      by_cases hr : r.bucket_name = bucket ∧ r.object_key = key ∧ r.is_latest = true
      · have hp : ¬ (r.bucket_name = b2 ∧ r.object_key = k2 ∧ r.is_latest = true) := by
          intro hp
          exact hne ⟨hp.1 ▸ hr.1.symm ▸ rfl, by
            have := hp.2.1
            have h2 := hr.2.1
            exact (this ▸ h2 ▸ rfl)⟩
        simp [flipFirstLatest, if_pos hr, latestCount, List.countP_cons, hp]
      · simp only [flipFirstLatest, if_neg hr]
        simp [latestCount, List.countP_cons] at ih ⊢
        omega

lemma removeFirstLatest_sublist (bucket key : String) (rows : List ObjRow) :
    (removeFirstLatest bucket key rows).Sublist rows := by
  induction rows with
  | nil => simp [removeFirstLatest]
  | cons r rs ih =>
      by_cases hr : r.bucket_name = bucket ∧ r.object_key = key ∧ r.is_latest = true
      · simp only [removeFirstLatest, if_pos hr]
        exact List.sublist_cons_self r rs
      · simp only [removeFirstLatest, if_neg hr]
        exact ih.cons₂ r

lemma latestCount_remove_self (bucket key : String) (rows : List ObjRow)
    (h : latestCount rows bucket key ≤ 1) :
    latestCount (removeFirstLatest bucket key rows) bucket key = 0 := by
  induction rows with
  | nil => rfl
  | cons r rs ih =>
      by_cases hr : r.bucket_name = bucket ∧ r.object_key = key ∧ r.is_latest = true
      · simp only [removeFirstLatest, if_pos hr]
        simp [latestCount, List.countP_cons, hr] at h
        simpa [latestCount] using h
      · simp only [removeFirstLatest, if_neg hr]
        have hle : latestCount rs bucket key ≤ 1 := by
          simp [latestCount, List.countP_cons, hr] at h
          simpa [latestCount] using h
        have := ih hle
        simp [latestCount, List.countP_cons, hr] at this ⊢
        simpa [latestCount] using this

end Store

/-- C7: for every (bucket, key) at most one objects row has
is_latest = true, and the invariant is preserved by the metadata
operations: put_object_metadata flips the prior latest and inserts the new
latest row in one step, leaving exactly one latest row for the written
key; delete_object_metadata removes only the latest row of the key and
promotes no other version, leaving zero latest rows for it; and when
nothing was deleted the state is unchanged. -/
theorem C7_latest_invariant (s : Store.MetaState) (bucket key : String)
    (size : Nat) (shards : List Store.ShardMeta)
    (hinv : ∀ b k, Store.latestCount s.objects b k ≤ 1) :
    (∀ b k, Store.latestCount
        ((Store.put_object_metadata s bucket key size shards).1.objects) b k ≤ 1) ∧
    Store.latestCount
        ((Store.put_object_metadata s bucket key size shards).1.objects)
        bucket key = 1 ∧
    (∀ b k, Store.latestCount
        ((Store.delete_object_metadata s bucket key).1.objects) b k ≤ 1) ∧
    Store.latestCount
        ((Store.delete_object_metadata s bucket key).1.objects) bucket key = 0 ∧
    ((Store.delete_object_metadata s bucket key).2 = false →
      (Store.delete_object_metadata s bucket key).1 = s) := by
  have hput : (Store.put_object_metadata s bucket key size shards).1.objects
      = Store.flipFirstLatest bucket key s.objects ++
        [{ id := s.nextId, bucket_name := bucket, object_key := key,
           version_id := Store.mkVersionId s.nextVersion, is_latest := true,
           size_bytes := size, shards := shards, content_hash := none }] := rfl
  have hputself : Store.latestCount
      ((Store.put_object_metadata s bucket key size shards).1.objects)
      bucket key = 1 := by
    rw [hput]
    unfold Store.latestCount
    rw [List.countP_append]
    have h0 : Store.latestCount
        (Store.flipFirstLatest bucket key s.objects) bucket key = 0 :=
      Store.latestCount_flip_self bucket key s.objects (hinv bucket key)
    unfold Store.latestCount at h0
    rw [h0]
    simp
  refine ⟨?_, hputself, ?_, ?_, ?_⟩
  · intro b k
    by_cases hbk : b = bucket ∧ k = key
    · rw [hbk.1, hbk.2, hputself]
    · rw [hput]
      unfold Store.latestCount
      rw [List.countP_append]
      have h1 := Store.latestCount_flip_other bucket key b k s.objects hbk
      unfold Store.latestCount at h1
      rw [h1]
      have h2 := hinv b k
      unfold Store.latestCount at h2
      have h3 : ¬ (bucket = b ∧ key = k) := by
        intro hx
        exact hbk ⟨hx.1.symm, hx.2.symm⟩
      simp only [List.countP_cons, List.countP_nil]
      simpa [h3] using h2
  · intro b k
    rcases hfind : Store.get_object_metadata s bucket key none with _ | o
    · simp only [Store.delete_object_metadata, hfind]
      exact hinv b k
    · simp only [Store.delete_object_metadata, hfind]
      calc Store.latestCount (Store.removeFirstLatest bucket key s.objects) b k
          ≤ Store.latestCount s.objects b k :=
            (Store.removeFirstLatest_sublist bucket key s.objects).countP_le _
        _ ≤ 1 := hinv b k
  · rcases hfind : Store.get_object_metadata s bucket key none with _ | o
    · simp only [Store.delete_object_metadata, hfind]
      unfold Store.latestCount
      rw [List.countP_eq_zero]
      intro r hr
      have := List.find?_eq_none.1 hfind r hr
      simpa using this
    · simp only [Store.delete_object_metadata, hfind]
      exact Store.latestCount_remove_self bucket key s.objects (hinv bucket key)
  · intro hfalse
    rcases hfind : Store.get_object_metadata s bucket key none with _ | o
    · simp only [Store.delete_object_metadata, hfind]
    · simp only [Store.delete_object_metadata, hfind] at hfalse
      cases hfalse

/-- C7 witness fixture: one bucket with a single latest version. -/
def c7State : Store.MetaState :=
  { objects :=
      [{ id := 1, bucket_name := "b", object_key := "k", version_id := "uuid-1",
         is_latest := true, size_bytes := 5, shards := [],
         content_hash := none }],
    contents := [], nextId := 2, nextVersion := 2 }

theorem C7_witness :
    Store.latestCount ((Store.put_object_metadata c7State "b" "k" 5 []).1.objects)
      "b" "k" = 1 := by
  have h := C7_latest_invariant c7State "b" "k" 5 []
    (by
      intro b k
      unfold Store.latestCount
      exact le_trans (List.countP_le_length _) (by decide))
  exact h.2.1


namespace Store

lemma find?_bump (hash : String) (cs : List ContentRow) :
    (cs.map (fun c => if c.content_hash = hash
        then { c with refcount := c.refcount + 1 } else c)).find?
      (fun c => decide (c.content_hash = hash))
    = (cs.find? (fun c => decide (c.content_hash = hash))).map
        (fun c => { c with refcount := c.refcount + 1 }) := by
  induction cs with
  | nil => rfl
  | cons c cs ih =>
      by_cases h : c.content_hash = hash
      · simp [h]
      · simp [h, ih]

lemma latestCount_setCH (rows : List ObjRow) (objId : Nat) (hash b k : String) :
    latestCount (rows.map (fun r => if r.id = objId
      then { r with content_hash := some hash } else r)) b k
    = latestCount rows b k := by
  unfold latestCount
  rw [List.countP_map]
  apply List.countP_congr
  intro r _
  by_cases h : r.id = objId
  · simp [Function.comp, h]
  · simp [Function.comp, h]

end Store

/-- C6: the deduplication branch of upload_object.  When the content hash
is already in the content store, the write bumps exactly that row's
refcount by one, inserts a new ObjectVersion with a fresh version id (the
uuid4 freshness modelled by the counter) pointing at the same shard
layout and carrying the content hash, leaves exactly one latest row for
the key (the prior latest is flipped inside the same put_object_metadata
transaction as the insert), returns deduplicated = true with the version
id and content hash, and issues no storage-node operation. -/
theorem C6_dedup_hit (s : Store.MetaState) (bucket key hash : String)
    (size : Nat) (c : Store.ContentRow)
    (hc : Store.lookupContent s hash = some c)
    (hinv : Store.latestCount s.objects bucket key ≤ 1) :
    ∃ s3, Gateway.upload_object_dedup_hit s bucket key hash size
        = some (s3, { version_id := Store.mkVersionId s.nextVersion,
                      deduplicated := true, content_hash := hash }, []) ∧
      Store.lookupContent s3 hash = some { c with refcount := c.refcount + 1 } ∧
      ({ id := s.nextId, bucket_name := bucket, object_key := key,
         version_id := Store.mkVersionId s.nextVersion, is_latest := true,
         size_bytes := size, shards := c.shards,
         content_hash := some hash } : Store.ObjRow) ∈ s3.objects ∧
      Store.latestCount s3.objects bucket key = 1 := by
  have hc2 : s.contents.find? (fun c2 => decide (c2.content_hash = hash))
      = some c := hc
  refine ⟨Store.setContentHash
      (Store.put_object_metadata (Store.incrRefcount s hash)
        bucket key size c.shards).1
      (Store.put_object_metadata (Store.incrRefcount s hash)
        bucket key size c.shards).2.id
      hash, ?_, ?_, ?_, ?_⟩
  · unfold Gateway.upload_object_dedup_hit
    rw [hc]
    rfl
  · show (s.contents.map (fun c2 => if c2.content_hash = hash
        then { c2 with refcount := c2.refcount + 1 } else c2)).find?
      (fun c2 => decide (c2.content_hash = hash)) = _
    rw [Store.find?_bump, hc2]
    rfl
  · set pr := Store.put_object_metadata (Store.incrRefcount s hash)
      bucket key size c.shards with hpr
    have hobj : (Store.setContentHash pr.1 pr.2.id hash).objects
        = (Store.flipFirstLatest bucket key s.objects ++ [pr.2]).map
          (fun r => if r.id = pr.2.id
            then { r with content_hash := some hash } else r) := rfl
    rw [hobj]
    refine List.mem_map.2 ⟨pr.2,
      List.mem_append_right _ (List.mem_singleton.2 rfl), ?_⟩
    rw [if_pos rfl]
    rfl
  · set pr := Store.put_object_metadata (Store.incrRefcount s hash)
      bucket key size c.shards with hpr
    have hobj : (Store.setContentHash pr.1 pr.2.id hash).objects
        = (Store.flipFirstLatest bucket key s.objects ++ [pr.2]).map
          (fun r => if r.id = pr.2.id
            then { r with content_hash := some hash } else r) := rfl
    rw [hobj, Store.latestCount_setCH]
    unfold Store.latestCount
    rw [List.countP_append]
    have h0 := Store.latestCount_flip_self bucket key s.objects hinv
    unfold Store.latestCount at h0
    rw [h0]
    have hrow : pr.2 = ({ id := s.nextId,
                          bucket_name := bucket,
                          object_key := key,
                          version_id := Store.mkVersionId s.nextVersion,
                          is_latest := true,
                          size_bytes := size,
                          shards := c.shards,
                          content_hash := none } : Store.ObjRow) := rfl
    rw [hrow]
    simp

/-- C6 witness fixture: one content row for hash h with refcount 1 and no
object rows. -/
def c6Shards : List Store.ShardMeta :=
  [{ index := 0, node_id := "node1", shard_key := "x0" }]

def c6Row : Store.ContentRow :=
  { content_hash := "h", size_bytes := 3, shards := c6Shards, refcount := 1 }

def c6State : Store.MetaState :=
  { objects := [], contents := [c6Row], nextId := 1, nextVersion := 1 }

theorem C6_witness :
    (Gateway.upload_object_dedup_hit c6State "b" "k" "h" 3).isSome = true := by
  obtain ⟨s3, h1, _⟩ := C6_dedup_hit c6State "b" "k" "h" 3 c6Row rfl (by decide)
  rw [h1]
  rfl

/-- C4 witness: round trips of the empty blob and of a one-byte blob
through concrete shard selections. -/
theorem C4_witness :
    EC.decode_data (([0, 1, 2, 3] : List Nat).map (fun j =>
        (EC.encode_data []).getD j [])) [0, 1, 2, 3] 0 = Except.ok [] ∧
    EC.decode_data (([2, 3, 4, 5] : List Nat).map (fun j =>
        (EC.encode_data [7]).getD j [])) [2, 3, 4, 5] 1 = Except.ok [7] := by
  constructor
  · exact EC.C4_encode_decode_roundtrip [] (by decide) [0, 1, 2, 3]
      (by decide) (by decide) (by decide)
  · exact EC.C4_encode_decode_roundtrip [7] (by decide) [2, 3, 4, 5]
      (by decide) (by decide) (by decide)

end PlanetStore
